import Mathlib

/-!
A shallow embedding of `src/wtx.py`: the witness-capable transaction codec
(`Tx.parse`, `Tx.serialize`, `Tx.nw_serialize`), the identifiers `txid`/`hash`,
the legacy sighash engine (`Tx.sig_hash`), signing and verification
(`Tx.sign_input`, `Tx.verify_input`), the coinbase utilities and the BIP68
`TxIn.nsequence` decoder.

Bytes are `List Nat` (each entry a value 0..255 on the wire). Python streams
are modelled by explicit `take`/`drop` on the remaining byte list: `s.read(n)`
returns up to `n` bytes, exactly as `BytesIO.read` does, and indexing an empty
read (`s.read(1)[0]`) is a failure. Fallible Python code (exceptions) is
modelled with `Option`/`Except`.

The collaborators `helper.py`, `script.py` and `ecc.py` are part of the
repository but not among its staged source files, so they are modelled from
the spec: the little-endian/varint codec and `double_sha256` as executable
definitions, the script value as an opaque carrier of its construction
(raw wire bytes, or a list of pushed elements), and the script-classification
and curve primitives as consumed capabilities (`ScriptOps`, `EccOps`,
`PrivKey`) passed in as parameters, exactly as §6 of the spec frames them.
-/

/-! ## Byte codec (modelled from the spec: `helper.py` primitives) -/

/-- Modelled from the spec: `helper.py`'s `little_endian_to_int`, i.e.
Python `int.from_bytes(b, 'little')`. Total: a short byte string simply
decodes to a smaller integer, as in Python. -/
def little_endian_to_int (bs : List Nat) : Nat :=
  bs.foldr (fun b acc => b + 256 * acc) 0

/-- The little-endian byte rendering of `n` on exactly `k` bytes
(the value of Python `n.to_bytes(k, 'little')` when it succeeds). -/
def leBytes : Nat → Nat → List Nat
  | _, 0 => []
  | n, k + 1 => n % 256 :: leBytes (n / 256) k

/-- Modelled from the spec: `helper.py`'s `int_to_little_endian`, i.e.
Python `n.to_bytes(k, 'little')`; `none` models the `OverflowError` raised
when `n` does not fit in `k` bytes. -/
def int_to_little_endian (n k : Nat) : Option (List Nat) :=
  if n < 256 ^ k then some (leBytes n k) else none

/-- Python `bytes([n])`: a single byte, failing (`ValueError`) unless
`n < 256`. -/
def byteOf (n : Nat) : Option Nat :=
  if n < 256 then some n else none

/-- Python `int.from_bytes(bs, 'big')`. -/
def big_endian_to_int (bs : List Nat) : Nat :=
  bs.foldl (fun acc b => 256 * acc + b) 0

/-- The big-endian byte rendering of `n` on exactly `k` bytes. -/
def beBytes (n k : Nat) : List Nat :=
  (leBytes n k).reverse

/-- Modelled from the spec: `helper.py`'s `encode_varint` (the glossary's
varint, Bitcoin's CompactSize): one byte below `0xfd`, otherwise a
`0xfd`/`0xfe`/`0xff` prefix followed by 2/4/8 little-endian bytes; `none`
models the `RuntimeError` on integers of 2^64 or more. -/
def encode_varint (i : Nat) : Option (List Nat) :=
  if i < 0xfd then some [i]
  else if i < 0x10000 then some (0xfd :: leBytes i 2)
  else if i < 0x100000000 then some (0xfe :: leBytes i 4)
  else if i < 0x10000000000000000 then some (0xff :: leBytes i 8)
  else none

/-- Modelled from the spec: `helper.py`'s `read_varint` on a byte stream,
returning the decoded integer and the remaining stream; `none` models the
`IndexError` of reading the prefix byte from an exhausted stream. The
2/4/8-byte reads after a prefix mirror Python's silent short reads. -/
def read_varint (s : List Nat) : Option (Nat × List Nat) :=
  match s with
  | [] => none
  | i :: rest =>
    if i = 0xfd then some (little_endian_to_int (rest.take 2), rest.drop 2)
    else if i = 0xfe then some (little_endian_to_int (rest.take 4), rest.drop 4)
    else if i = 0xff then some (little_endian_to_int (rest.take 8), rest.drop 8)
    else some (i, rest)

/-! ## SHA-256 (modelled from the spec: `helper.py`'s `double_sha256`)

A direct executable rendering of FIPS 180-4 SHA-256 over byte lists, so that
`double_sha256` is the genuine double hash the spec's digest and identifier
sentences speak about. All word arithmetic is `Nat` reduced modulo `2^32`. -/

def w32 (x : Nat) : Nat := x % 4294967296

def rotr32 (n x : Nat) : Nat := w32 ((x >>> n) ||| (x <<< (32 - n)))

def sha256Ch (x y z : Nat) : Nat := (x &&& y) ^^^ ((x ^^^ 4294967295) &&& z)

def sha256Maj (x y z : Nat) : Nat := (x &&& y) ^^^ (x &&& z) ^^^ (y &&& z)

def sigA0 (x : Nat) : Nat := rotr32 2 x ^^^ rotr32 13 x ^^^ rotr32 22 x

def sigA1 (x : Nat) : Nat := rotr32 6 x ^^^ rotr32 11 x ^^^ rotr32 25 x

def sigB0 (x : Nat) : Nat := rotr32 7 x ^^^ rotr32 18 x ^^^ (x >>> 3)

def sigB1 (x : Nat) : Nat := rotr32 17 x ^^^ rotr32 19 x ^^^ (x >>> 10)

def sha256K : List Nat :=
  [1116352408, 1899447441, 3049323471, 3921009573, 961987163,
   1508970993, 2453635748, 2870763221, 3624381080, 310598401,
   607225278, 1426881987, 1925078388, 2162078206, 2614888103,
   3248222580, 3835390401, 4022224774, 264347078, 604807628,
   770255983, 1249150122, 1555081692, 1996064986, 2554220882,
   2821834349, 2952996808, 3210313671, 3336571891, 3584528711,
   113926993, 338241895, 666307205, 773529912, 1294757372,
   1396182291, 1695183700, 1986661051, 2177026350, 2456956037,
   2730485921, 2820302411, 3259730800, 3345764771, 3516065817,
   3600352804, 4094571909, 275423344, 430227734, 506948616,
   659060556, 883997877, 958139571, 1322822218, 1537002063,
   1747873779, 1955562222, 2024104815, 2227730452, 2361852424,
   2428436474, 2756734187, 3204031479, 3329325298]

def sha256H0 : List Nat :=
  [1779033703, 3144134277, 1013904242, 2773480762, 1359893119,
   2600822924, 528734635, 1541459225]

/-- Extend a 16-word message block to the 64-word schedule by appending
`k` more words. -/
def sha256Extend : List Nat → Nat → List Nat
  | w, 0 => w
  | w, k + 1 =>
    let t := w32 (sigB1 (w.getD (w.length - 2) 0) + w.getD (w.length - 7) 0 +
                  sigB0 (w.getD (w.length - 15) 0) + w.getD (w.length - 16) 0)
    sha256Extend (w ++ [t]) k

/-- One SHA-256 round: `kw` is the already-summed `K[t] + W[t]`. -/
def sha256Round (kw : Nat) (st : List Nat) : List Nat :=
  match st with
  | [a, b, c, d, e, f, g, h] =>
    let t1 := w32 (h + sigA1 e + sha256Ch e f g + kw)
    let t2 := w32 (sigA0 a + sha256Maj a b c)
    [w32 (t1 + t2), a, b, c, w32 (d + t1), e, f, g]
  | other => other

/-- Compress one 16-word block into the running hash state. -/
def sha256Block (h : List Nat) (block : List Nat) : List Nat :=
  let w := sha256Extend block 48
  let kw := List.zipWith (fun a b => w32 (a + b)) w sha256K
  let st := kw.foldl (fun s x => sha256Round x s) h
  List.zipWith (fun a b => w32 (a + b)) h st

/-- Big-endian 32-bit words from a byte list (whole 4-byte groups). -/
def bytesToWords : List Nat → List Nat
  | b0 :: b1 :: b2 :: b3 :: rest =>
    (((b0 * 256 + b1) * 256 + b2) * 256 + b3) :: bytesToWords rest
  | _ => []

/-- Chop a word list into 16-word blocks (whole blocks). -/
def wordsToBlocks : List Nat → List (List Nat)
  | w0 :: w1 :: w2 :: w3 :: w4 :: w5 :: w6 :: w7 ::
    w8 :: w9 :: w10 :: w11 :: w12 :: w13 :: w14 :: w15 :: rest =>
    [w0, w1, w2, w3, w4, w5, w6, w7, w8, w9, w10, w11, w12, w13, w14, w15] ::
      wordsToBlocks rest
  | _ => []

/-- FIPS 180-4 padding: `0x80`, zeros to 56 mod 64, 8-byte big-endian bit
length. -/
def sha256Pad (msg : List Nat) : List Nat :=
  let L := msg.length
  let zeros := (119 - L % 64) % 64
  msg ++ 0x80 :: List.replicate zeros 0 ++ beBytes (8 * L) 8

/-- Modelled from the spec: SHA-256 of a byte string (FIPS 180-4). -/
def sha256 (msg : List Nat) : List Nat :=
  let final := (wordsToBlocks (bytesToWords (sha256Pad msg))).foldl sha256Block sha256H0
  final.foldr (fun wd acc => beBytes wd 4 ++ acc) []

/-- Modelled from the spec: `helper.py`'s `double_sha256`, two rounds of
SHA-256. -/
def double_sha256 (msg : List Nat) : List Nat := sha256 (sha256 msg)

/-! ## The script value and the consumed capabilities

Modelled from the spec (§6): the script is an opaque value produced either by
parsing raw wire bytes (`Script.parse`, as `TxIn`/`TxOut` construction does
eagerly) or by pushing a list of byte elements (as `sign_input` does);
`serialize` returns the wire bytes. Classification, signature/pubkey
extraction, the redeem script and the element list are the consumed script
capability, a `ScriptOps` record passed in by the caller; likewise the curve
primitives (`EccOps`, `PrivKey`) and the previous-output resolution
(`fetch : prev_tx bytes → Option Tx`). -/

inductive Script where
  | raw : List Nat → Script
  | push : List (List Nat) → Script
deriving DecidableEq

/-- Modelled from the spec: `Script.parse` of raw wire bytes, kept opaque. -/
def Script.parse (bs : List Nat) : Script := .raw bs

/-- The encoding of one pushed element, used only for scripts built from
elements. Modelled from the spec (the spec does not fix this byte layout;
no claim depends on it). -/
def pushEncode (e : List Nat) : List Nat := e.length :: e

/-- Modelled from the spec: `serialize() -> bytes`; a script parsed from the
wire returns its bytes unchanged. -/
def Script.serialize : Script → List Nat
  | .raw bs => bs
  | .push es => es.foldr (fun e acc => pushEncode e ++ acc) []

/-- Modelled from the spec: the consumed script-value capability of §6,
`classify`/`type`, `requiredSignatureCount`, `publicKeyAt`, `signatureAt`
(the raw DER-plus-hashtype bytes), `redeemScript` and `elementAt`. -/
structure ScriptOps where
  type : Script → String
  num_sigs_required : Script → Nat
  sec_pubkey : Script → Nat → Option (List Nat)
  der_signature : Script → Nat → Option (List Nat)
  redeem_script : Script → Option (List Nat)
  elements : Script → List (List Nat)

/-- Modelled from the spec: the consumed signature primitive, collapsed to
one total check `verify sec digest der`. -/
structure EccOps where
  verify : List Nat → Nat → List Nat → Bool

/-- Modelled from the spec: a private key as the capability to sign a digest
(DER bytes) together with its compressed public key bytes. -/
structure PrivKey where
  sign : Nat → List Nat
  sec : List Nat

/-! ## Data model (`Tx`, `TxIn`, `TxOut` of `src/wtx.py`) -/

structure TxIn where
  prev_tx : List Nat
  prev_index : Nat
  script_sig : Script
  sequence : Nat
deriving DecidableEq

structure TxOut where
  amount : Nat
  script_pubkey : Script
deriving DecidableEq

structure Tx where
  version : Nat
  tx_ins : List TxIn
  tx_outs : List TxOut
  locktime : Nat
  witnesses : Option (List (List (List Nat)))
  flag : Nat
  testnet : Bool
deriving DecidableEq

/-- `TxIn.nsequence`: the BIP68 relative-locktime decoder. Falling off the
end of the Python function (disable flag set) is the value `None`. -/
def TxIn.nsequence (t : TxIn) : Option (Bool × String × Nat) :=
  let disable_flag := (1 <<< 31) &&& t.sequence
  if disable_flag = 0 then
    let type_flag := (1 <<< 22) &&& t.sequence
    let val := 0x0000FFFF &&& t.sequence
    if type_flag ≠ 0 then some (true, "sec", val * 512)
    else some (true, "block", val)
  else none

/-- `TxIn.parse`: 32-byte reversed previous id, 4-byte LE index,
varint-prefixed raw script (parsed eagerly), 4-byte LE sequence. `none`
models the `IndexError` of `read_varint` on an exhausted stream; every
other short read silently yields fewer bytes, as in Python. -/
def TxIn.parse (s : List Nat) : Option (TxIn × List Nat) :=
  let prev_tx := (s.take 32).reverse
  let s1 := s.drop 32
  let prev_index := little_endian_to_int (s1.take 4)
  let s2 := s1.drop 4
  match read_varint s2 with
  | none => none
  | some (len, s3) =>
    let script_sig := s3.take len
    let s4 := s3.drop len
    let sequence := little_endian_to_int (s4.take 4)
    some (⟨prev_tx, prev_index, Script.parse script_sig, sequence⟩, s4.drop 4)

/-- `TxIn.serialize`: reversed previous id, 4-byte LE index, varint-prefixed
script bytes, 4-byte LE sequence. -/
def TxIn.serialize (t : TxIn) : Option (List Nat) :=
  match int_to_little_endian t.prev_index 4,
        encode_varint t.script_sig.serialize.length,
        int_to_little_endian t.sequence 4 with
  | some pi, some lv, some sq =>
    some (t.prev_tx.reverse ++ pi ++ lv ++ t.script_sig.serialize ++ sq)
  | _, _, _ => none

/-- `TxOut.parse`: 8-byte LE amount, varint-prefixed raw locking script. -/
def TxOut.parse (s : List Nat) : Option (TxOut × List Nat) :=
  let amount := little_endian_to_int (s.take 8)
  let s1 := s.drop 8
  match read_varint s1 with
  | none => none
  | some (len, s2) =>
    some (⟨amount, Script.parse (s2.take len)⟩, s2.drop len)

/-- `TxOut.serialize`: 8-byte LE amount, varint-prefixed script bytes. -/
def TxOut.serialize (o : TxOut) : Option (List Nat) :=
  match int_to_little_endian o.amount 8,
        encode_varint o.script_pubkey.serialize.length with
  | some am, some lv => some (am ++ lv ++ o.script_pubkey.serialize)
  | _, _ => none

/-- Run a one-item parser a counted number of times, threading the stream. -/
def parseCount (p : List Nat → Option (α × List Nat)) :
    Nat → List Nat → Option (List α × List Nat)
  | 0, s => some ([], s)
  | n + 1, s =>
    match p s with
    | none => none
    | some (x, s1) =>
      match parseCount p n s1 with
      | none => none
      | some (xs, s2) => some (x :: xs, s2)

/-- Serialize every item and concatenate, failing if any item fails. -/
def serializeEach (f : α → Option (List Nat)) : List α → Option (List Nat)
  | [] => some []
  | x :: xs =>
    match f x, serializeEach f xs with
    | some b, some bs => some (b ++ bs)
    | _, _ => none

/-- One witness item on the wire: varint length, then the bytes. -/
def serializeWitnessItem (w : List Nat) : Option (List Nat) :=
  match encode_varint w.length with
  | none => none
  | some lv => some (lv ++ w)

/-- One witness item off the wire: varint size, then that many bytes. -/
def parseWitnessItem (s : List Nat) : Option (List Nat × List Nat) :=
  match read_varint s with
  | none => none
  | some (sz, s1) => some (s1.take sz, s1.drop sz)

/-- One input's witness stack on the wire: varint item count, then the
length-prefixed items. -/
def serializeStack (st : List (List Nat)) : Option (List Nat) :=
  match encode_varint st.length, serializeEach serializeWitnessItem st with
  | some c, some items => some (c ++ items)
  | _, _ => none

/-- One input's witness stack off the wire. -/
def parseStack (s : List Nat) : Option (List (List Nat) × List Nat) :=
  match read_varint s with
  | none => none
  | some (n, s1) => parseCount parseWitnessItem n s1

/-- The witness section `Tx.serialize` emits: one stack per input, indexing
`self.witnesses[ix]` for `ix` below the input count. `none` models the
`TypeError`/`IndexError` of subscripting `None` or a too-short list — which
only happens when at least one input demands a stack. -/
def Tx.witnessPart (tx : Tx) : Option (List Nat) :=
  if tx.tx_ins.length = 0 then some []
  else
    match tx.witnesses with
    | none => none
    | some ws =>
      if tx.tx_ins.length ≤ ws.length then
        serializeEach serializeStack (ws.take tx.tx_ins.length)
      else none

/-- The varint input count followed by each serialized input. -/
def serializeInsCounted (l : List TxIn) : Option (List Nat) :=
  match encode_varint l.length, serializeEach TxIn.serialize l with
  | some c, some b => some (c ++ b)
  | _, _ => none

/-- The varint output count followed by each serialized output. -/
def serializeOutsCounted (l : List TxOut) : Option (List Nat) :=
  match encode_varint l.length, serializeEach TxOut.serialize l with
  | some c, some b => some (c ++ b)
  | _, _ => none

/-- `Tx.nw_serialize`: version, counted inputs, counted outputs, locktime —
no marker, flag or witness section. -/
def Tx.nw_serialize (tx : Tx) : Option (List Nat) :=
  match int_to_little_endian tx.version 4,
        serializeInsCounted tx.tx_ins,
        serializeOutsCounted tx.tx_outs,
        int_to_little_endian tx.locktime 4 with
  | some v, some ib, some ob, some lt => some (v ++ ib ++ ob ++ lt)
  | _, _, _, _ => none

/-- `Tx.serialize`: version, marker `0`, the flag byte, counted inputs,
counted outputs, the per-input witness stacks, locktime. -/
def Tx.serialize (tx : Tx) : Option (List Nat) :=
  match Tx.witnessPart tx with
  | none => none
  | some wb =>
    match int_to_little_endian tx.version 4,
          byteOf tx.flag,
          serializeInsCounted tx.tx_ins,
          serializeOutsCounted tx.tx_outs,
          int_to_little_endian tx.locktime 4 with
    | some v, some fb, some ib, some ob, some lt =>
      some (v ++ 0 :: fb :: (ib ++ ob ++ wb ++ lt))
    | _, _, _, _, _ => none

/-- `Tx.txid`: reversed double hash of the non-witness serialization. -/
def Tx.txid (tx : Tx) : Option (List Nat) :=
  tx.nw_serialize.map (fun b => (double_sha256 b).reverse)

/-- `Tx.hash`: reversed double hash of the full (witness) serialization. -/
def Tx.hash (tx : Tx) : Option (List Nat) :=
  tx.serialize.map (fun b => (double_sha256 b).reverse)

inductive ParseErr where
  | truncated | badMarker | badFlag
deriving DecidableEq

/-- `Tx.parse`: version (4 bytes LE), marker byte that must be zero
(`RuntimeError` otherwise), flag byte that must be nonzero, counted inputs,
counted outputs, one witness stack per input, locktime. The produced
transaction always carries `flag = 1` (the literal the code passes to the
constructor) and the constructor defaults `testnet = False`. `.truncated`
models the `IndexError` of indexing an empty read. -/
def Tx.parse (s : List Nat) : Except ParseErr (Tx × List Nat) :=
  let version := little_endian_to_int (s.take 4)
  match s.drop 4 with
  | [] => .error .truncated
  | m :: s1 =>
    if m ≠ 0 then .error .badMarker
    else
      match s1 with
      | [] => .error .truncated
      | f :: s2 =>
        if f = 0 then .error .badFlag
        else
          match read_varint s2 with
          | none => .error .truncated
          | some (num_inputs, s3) =>
            match parseCount TxIn.parse num_inputs s3 with
            | none => .error .truncated
            | some (inputs, s4) =>
              match read_varint s4 with
              | none => .error .truncated
              | some (num_outputs, s5) =>
                match parseCount TxOut.parse num_outputs s5 with
                | none => .error .truncated
                | some (outputs, s6) =>
                  match parseCount parseStack num_inputs s6 with
                  | none => .error .truncated
                  | some (witnesses, s7) =>
                    let locktime := little_endian_to_int (s7.take 4)
                    .ok (⟨version, inputs, outputs, locktime,
                          some witnesses, 1, false⟩, s7.drop 4)

/-! ## Sighash engine, signing, verification, coinbase utilities -/

inductive SigErr where
  | badIndex | lookupFailed | redeemFailed | unsupportedScriptType
  | serializeCrashed | hashTypeOverflow
deriving DecidableEq

/-- The resolution of a previous output: `TxIn.script_pubkey` fetches the
previous transaction by its id (the external lookup capability `fetch`) and
takes `tx_outs[prev_index].script_pubkey`; `none` models a failed fetch or
an out-of-range index. -/
def TxIn.lookupScriptPubkey (fetch : List Nat → Option Tx) (t : TxIn) :
    Option Script :=
  match fetch t.prev_tx with
  | none => none
  | some ptx => (ptx.tx_outs.get? t.prev_index).map TxOut.script_pubkey

/-- The `alt_tx_ins` of `Tx.sig_hash`: every input cloned with a blank
(`b''`, eagerly parsed) unlocking script, keeping previous id, previous
index and sequence. -/
def Tx.blankIns (tx : Tx) : List TxIn :=
  tx.tx_ins.map (fun t => ⟨t.prev_tx, t.prev_index, Script.parse [], t.sequence⟩)

/-- The input list `Tx.sig_hash` serializes: the blank clones with the
targeted clone's unlocking script substituted — the previous output's
locking script for `p2pkh`, the parsed redeem script of the real input for
`p2sh`; any other classification is `UnsupportedScriptType`
(`RuntimeError('no valid sig_type')`). -/
def Tx.sigHashAltIns (ops : ScriptOps) (fetch : List Nat → Option Tx)
    (tx : Tx) (input_index : Nat) : Except SigErr (List TxIn) :=
  let alt := tx.blankIns
  match alt.get? input_index with
  | none => .error .badIndex
  | some signing_input =>
    match signing_input.lookupScriptPubkey fetch with
    | none => .error .lookupFailed
    | some script_pubkey =>
      if ops.type script_pubkey = "p2pkh" then
        .ok (alt.set input_index
          ⟨signing_input.prev_tx, signing_input.prev_index,
           script_pubkey, signing_input.sequence⟩)
      else if ops.type script_pubkey = "p2sh" then
        match tx.tx_ins.get? input_index with
        | none => .error .badIndex
        | some current_input =>
          match ops.redeem_script current_input.script_sig with
          | none => .error .redeemFailed
          | some rs =>
            .ok (alt.set input_index
              ⟨signing_input.prev_tx, signing_input.prev_index,
               Script.parse rs, signing_input.sequence⟩)
      else .error .unsupportedScriptType

/-- `Tx.sig_hash`: build the substituted clone list, assemble `alt_tx` with
the constructor defaults (`witnesses=None`, `flag=1`, `testnet=False` — the
code passes neither), serialize it with the witness serializer, append the
4-byte LE hash type, double-hash, and read the digest big-endian.
`.serializeCrashed` models the `TypeError` of `serialize()` subscripting
`witnesses = None`. -/
def Tx.sig_hash (ops : ScriptOps) (fetch : List Nat → Option Tx)
    (tx : Tx) (input_index hash_type : Nat) : Except SigErr Nat :=
  match Tx.sigHashAltIns ops fetch tx input_index with
  | .error e => .error e
  | .ok alt_tx_ins =>
    let alt_tx : Tx :=
      ⟨tx.version, alt_tx_ins, tx.tx_outs, tx.locktime, none, 1, false⟩
    match alt_tx.serialize with
    | none => .error .serializeCrashed
    | some bs =>
      match int_to_little_endian hash_type 4 with
      | none => .error .hashTypeOverflow
      | some hb => .ok (big_endian_to_int (double_sha256 (bs ++ hb)))

/-- One signature check of `Tx.verify_input`: extract the `k`-th public key
and (DER, hash type) pair, recompute the sighash digest for that hash type,
and verify. `none` models a raised extraction or sighash error;
`some b` is the boolean verdict of the curve check. -/
def Tx.checkSig (ops : ScriptOps) (ecc : EccOps) (fetch : List Nat → Option Tx)
    (tx : Tx) (input_index : Nat) (t : TxIn) (k : Nat) : Option Bool :=
  match ops.sec_pubkey t.script_sig k with
  | none => none
  | some sec =>
    match ops.der_signature t.script_sig k with
    | none => none
    | some sig =>
      match sig.getLast? with
      | none => none
      | some hash_type =>
        match Tx.sig_hash ops fetch tx input_index hash_type with
        | .error _ => none
        | .ok z => some (ecc.verify sec z sig.dropLast)

/-- The ascending loop of `Tx.verify_input`: run `f` on `k, k+1, ...` for
`n` steps, stopping at the first `false` (returned) or raised error. -/
def verifyLoop (f : Nat → Option Bool) : Nat → Nat → Option Bool
  | _, 0 => some true
  | k, n + 1 =>
    match f k with
    | none => none
    | some false => some false
    | some true => verifyLoop f (k + 1) n

/-- `Tx.verify_input`: ask the input's unlocking script for the required
signature count, then check each signature in ascending order. -/
def Tx.verify_input (ops : ScriptOps) (ecc : EccOps)
    (fetch : List Nat → Option Tx) (tx : Tx) (input_index : Nat) :
    Option Bool :=
  match tx.tx_ins.get? input_index with
  | none => none
  | some tx_in =>
    verifyLoop (Tx.checkSig ops ecc fetch tx input_index tx_in) 0
      (ops.num_sigs_required tx_in.script_sig)

/-- `Tx.sign_input`: compute the digest, sign it, append the hash-type byte
to the DER bytes, install a two-element unlocking script `[sig, sec]` on the
input, and return the mutated transaction with the verdict of
`verify_input` on it. -/
def Tx.sign_input (ops : ScriptOps) (ecc : EccOps)
    (fetch : List Nat → Option Tx) (private_key : PrivKey)
    (tx : Tx) (input_index hash_type : Nat) : Option (Tx × Bool) :=
  match Tx.sig_hash ops fetch tx input_index hash_type with
  | .error _ => none
  | .ok z =>
    match byteOf hash_type with
    | none => none
    | some hb =>
      let sig := private_key.sign z ++ [hb]
      let sec := private_key.sec
      match tx.tx_ins.get? input_index with
      | none => none
      | some t =>
        let newIn : TxIn := ⟨t.prev_tx, t.prev_index, Script.push [sig, sec], t.sequence⟩
        let tx2 : Tx := { tx with tx_ins := tx.tx_ins.set input_index newIn }
        match Tx.verify_input ops ecc fetch tx2 input_index with
        | none => none
        | some ok => some (tx2, ok)

/-- `Tx.is_coinbase`: exactly one input, whose previous id is 32 zero bytes
and whose previous index is `0xffffffff`. -/
def Tx.is_coinbase (tx : Tx) : Bool :=
  match tx.tx_ins with
  | [first_input] =>
    decide (first_input.prev_tx = List.replicate 32 0) &&
      decide (first_input.prev_index = 0xffffffff)
  | _ => false

/-- `Tx.coinbase_height`: the Python value `None` (`some none`) for a
non-coinbase transaction; for a coinbase, the little-endian decoding of the
first element of the sole input's unlocking script. The outer `none` models
the `IndexError` on an element-less script. -/
def Tx.coinbase_height (ops : ScriptOps) (tx : Tx) : Option (Option Nat) :=
  if tx.is_coinbase then
    match tx.tx_ins with
    | [] => none
    | first_input :: _ =>
      match ops.elements first_input.script_sig with
      | [] => none
      | first_element :: _ => some (some (little_endian_to_int first_element))
  else some none


/-- The transactions whose in-memory form matches what `Tx.parse` can
produce: flag `1`, default network, a witness stack per input, and scripts
that carry their own wire bytes (as eagerly parsed scripts do). -/
def Tx.Canonical (tx : Tx) : Prop :=
  tx.flag = 1 ∧ tx.testnet = false ∧
  tx.witnesses.isSome = true ∧
  (tx.witnesses.getD []).length = tx.tx_ins.length ∧
  (∀ t ∈ tx.tx_ins,
    t.prev_tx.length = 32 ∧ Script.parse t.script_sig.serialize = t.script_sig) ∧
  (∀ o ∈ tx.tx_outs, Script.parse o.script_pubkey.serialize = o.script_pubkey)

instance (tx : Tx) : Decidable tx.Canonical := by
  unfold Tx.Canonical; infer_instance


/-! ## Concrete fixtures for witnesses and counterexamples -/

/-- A canonical one-input, one-output witness transaction. -/
def wtx0 : Tx :=
  ⟨1, [⟨List.replicate 32 0, 0, Script.raw [0x51], 0xfffffffe⟩],
   [⟨1000, Script.raw [0x6a]⟩], 0, some [[[0xaa]]], 1, false⟩

/-- The wire bytes of `wtx0`. -/
def wtx0B : List Nat := (Tx.serialize wtx0).getD []

/-- A wire buffer that conforms to the spec's grammar (marker `0`, nonzero
flag) but carries flag byte `2`: version 1, no inputs, no outputs,
locktime 0. -/
def flagTwoBuf : List Nat := [1, 0, 0, 0, 0, 2, 0, 0, 0, 0, 0, 0]

/-- What `Tx.parse flagTwoBuf` yields: the flag has been forced to `1`. -/
def flagTwoTx : Tx := ⟨1, [], [], 0, some [], 1, false⟩

/-- A transaction whose only witness stack is empty. -/
def emptyWitTx : Tx :=
  ⟨1, [⟨List.replicate 32 0, 0, Script.raw [], 0xffffffff⟩], [], 0,
   some [[]], 1, false⟩

/-- A one-input transaction whose previous output resolves via `fetch0`. -/
def spendTx : Tx :=
  ⟨1, [⟨List.replicate 32 1, 0, Script.raw [0xab], 0⟩], [], 0,
   some [[]], 1, false⟩

/-- The resolved previous transaction: one output, locking script
`[0x76]`. -/
def prevTx0 : Tx := ⟨1, [], [⟨5000, Script.raw [0x76]⟩], 0, some [], 1, false⟩

/-- A resolution capability that always finds `prevTx0`. -/
def fetch0 : List Nat → Option Tx := fun _ => some prevTx0

/-- A script capability that classifies everything as `p2pkh` and supplies
one signature slot. -/
def opsP2pkh : ScriptOps :=
  ⟨fun _ => "p2pkh", fun _ => 1, fun _ _ => some [2], fun _ _ => some [3, 1],
   fun _ => none, fun _ => []⟩

/-- A script capability that classifies everything as `p2sh`. -/
def opsP2sh : ScriptOps :=
  ⟨fun _ => "p2sh", fun _ => 1, fun _ _ => some [2], fun _ _ => some [3, 1],
   fun _ => some [0x51], fun _ => []⟩

/-- A script capability with an unrecognized classification. -/
def opsOther : ScriptOps :=
  ⟨fun _ => "p2wpkh", fun _ => 1, fun _ _ => some [2], fun _ _ => some [3, 1],
   fun _ => none, fun _ => []⟩

/-- A script capability whose element list is `[[100]]` (a BIP34 height). -/
def opsHeight : ScriptOps :=
  ⟨fun _ => "p2pkh", fun _ => 0, fun _ _ => none, fun _ _ => none,
   fun _ => none, fun _ => [[100]]⟩

/-- A curve capability that accepts everything. -/
def eccYes : EccOps := ⟨fun _ _ _ => true⟩

/-- A coinbase transaction: one input, zero previous id, sentinel index. -/
def coinbaseTx : Tx :=
  ⟨1, [⟨List.replicate 32 0, 0xffffffff, Script.raw [3, 100, 0, 0], 0⟩],
   [⟨5000, Script.raw [0x6a]⟩], 0, some [[]], 1, false⟩

/-! ## Codec round-trip lemmas -/

theorem leBytes_length (k n : Nat) : (leBytes n k).length = k := by
  induction k generalizing n with
  | zero => rfl
  | succ k ih => simp [leBytes, ih]

theorem little_endian_to_int_cons (b : Nat) (bs : List Nat) :
    little_endian_to_int (b :: bs) = b + 256 * little_endian_to_int bs := by
  simp [little_endian_to_int]

theorem little_endian_to_int_leBytes (k n : Nat) :
    little_endian_to_int (leBytes n k) = n % 256 ^ k := by
  induction k generalizing n with
  | zero => simp [leBytes, little_endian_to_int, Nat.mod_one]
  | succ k ih =>
    rw [leBytes, little_endian_to_int_cons, ih, pow_succ, mul_comm (256 ^ k) 256,
      Nat.mod_mul]

theorem le_roundtrip (k n : Nat) (h : n < 256 ^ k) :
    little_endian_to_int (leBytes n k) = n := by
  rw [little_endian_to_int_leBytes, Nat.mod_eq_of_lt h]

theorem int_to_little_endian_eq_some (n k : Nat) (bs : List Nat)
    (h : int_to_little_endian n k = some bs) :
    bs = leBytes n k ∧ n < 256 ^ k := by
  unfold int_to_little_endian at h
  split at h
  · exact ⟨(Option.some_inj.mp h).symm, by assumption⟩
  · exact absurd h (by simp)

theorem take_leBytes_append (n k : Nat) (rest : List Nat) :
    (leBytes n k ++ rest).take k = leBytes n k :=
  List.take_left' (leBytes_length k n)

theorem drop_leBytes_append (n k : Nat) (rest : List Nat) :
    (leBytes n k ++ rest).drop k = rest :=
  List.drop_left' (leBytes_length k n)

theorem varint_roundtrip (n : Nat) (bs : List Nat)
    (h : encode_varint n = some bs) (rest : List Nat) :
    read_varint (bs ++ rest) = some (n, rest) := by
  unfold encode_varint at h
  split_ifs at h with h1 h2 h3 h4 <;>
    rw [← Option.some_inj.mp h]
  · have e1 : n ≠ 0xfd := by omega
    have e2 : n ≠ 0xfe := by omega
    have e3 : n ≠ 0xff := by omega
    simp [read_varint, e1, e2, e3]
  · simp only [read_varint, List.cons_append, if_pos rfl, if_true, eq_self_iff_true]
    rw [take_leBytes_append, drop_leBytes_append,
      le_roundtrip 2 n (by norm_num; omega)]
  · have e1 : (0xfe : Nat) ≠ 0xfd := by norm_num
    simp only [read_varint, List.cons_append, if_neg e1, if_pos rfl, if_true,
      eq_self_iff_true]
    rw [take_leBytes_append, drop_leBytes_append,
      le_roundtrip 4 n (by norm_num; omega)]
  · have e1 : (0xff : Nat) ≠ 0xfd := by norm_num
    have e2 : (0xff : Nat) ≠ 0xfe := by norm_num
    simp only [read_varint, List.cons_append, if_neg e1, if_neg e2, if_pos rfl,
      if_true, eq_self_iff_true]
    rw [take_leBytes_append, drop_leBytes_append,
      le_roundtrip 8 n (by norm_num; omega)]

theorem txIn_parse_of_serialize (t : TxIn) (h32 : t.prev_tx.length = 32)
    (hsc : Script.parse t.script_sig.serialize = t.script_sig)
    (bs : List Nat) (hser : t.serialize = some bs) (rest : List Nat) :
    TxIn.parse (bs ++ rest) = some (t, rest) := by
  unfold TxIn.serialize at hser
  split at hser
  case h_2 => exact absurd hser (by simp)
  case h_1 pi lv sq hpi hlv hsq =>
    obtain ⟨rfl, hlt1⟩ := int_to_little_endian_eq_some _ _ _ hpi
    obtain ⟨rfl, hlt2⟩ := int_to_little_endian_eq_some _ _ _ hsq
    cases hser
    unfold TxIn.parse
    simp only [List.append_assoc]
    rw [List.take_left' (show t.prev_tx.reverse.length = 32 by simp [h32]),
      List.drop_left' (show t.prev_tx.reverse.length = 32 by simp [h32]),
      List.reverse_reverse, take_leBytes_append, drop_leBytes_append,
      le_roundtrip 4 _ hlt1, varint_roundtrip _ lv hlv]
    simp only []
    rw [List.take_left, List.drop_left, take_leBytes_append,
      drop_leBytes_append, le_roundtrip 4 _ hlt2, hsc]

theorem txOut_parse_of_serialize (o : TxOut)
    (hsc : Script.parse o.script_pubkey.serialize = o.script_pubkey)
    (bs : List Nat) (hser : o.serialize = some bs) (rest : List Nat) :
    TxOut.parse (bs ++ rest) = some (o, rest) := by
  unfold TxOut.serialize at hser
  split at hser
  case h_2 => exact absurd hser (by simp)
  case h_1 am lv ham hlv =>
    obtain ⟨rfl, hlt1⟩ := int_to_little_endian_eq_some _ _ _ ham
    cases hser
    unfold TxOut.parse
    simp only [List.append_assoc]
    rw [take_leBytes_append, drop_leBytes_append, le_roundtrip 8 _ hlt1,
      varint_roundtrip _ lv hlv]
    simp only []
    rw [List.take_left, List.drop_left, hsc]

theorem parseCount_serializeEach {α : Type} (p : List Nat → Option (α × List Nat))
    (f : α → Option (List Nat)) (xs : List α)
    (hr : ∀ x ∈ xs, ∀ bs rest, f x = some bs → p (bs ++ rest) = some (x, rest))
    (bs : List Nat) (hser : serializeEach f xs = some bs) (rest : List Nat) :
    parseCount p xs.length (bs ++ rest) = some (xs, rest) := by
  induction xs generalizing bs with
  | nil =>
    cases hser
    simp [parseCount]
  | cons x xs ih =>
    unfold serializeEach at hser
    split at hser
    case h_2 => exact absurd hser (by simp)
    case h_1 b tb hb htb =>
      cases hser
      show parseCount p (xs.length + 1) ((b ++ tb) ++ rest) = some (x :: xs, rest)
      unfold parseCount
      rw [List.append_assoc, hr x (by simp) b (tb ++ rest) hb]
      simp only []
      rw [ih (fun y hy => hr y (by simp [hy])) tb htb]

theorem parseWitnessItem_roundtrip (w bs : List Nat)
    (h : serializeWitnessItem w = some bs) (rest : List Nat) :
    parseWitnessItem (bs ++ rest) = some (w, rest) := by
  unfold serializeWitnessItem at h
  split at h
  case h_1 => exact absurd h (by simp)
  case h_2 lv hlv =>
    cases h
    unfold parseWitnessItem
    rw [List.append_assoc, varint_roundtrip _ lv hlv]
    simp only []
    rw [List.take_left, List.drop_left]

theorem parseStack_serializeStack (st : List (List Nat)) (bs : List Nat)
    (hser : serializeStack st = some bs) (rest : List Nat) :
    parseStack (bs ++ rest) = some (st, rest) := by
  unfold serializeStack at hser
  split at hser
  case h_2 => exact absurd hser (by simp)
  case h_1 c items hc hitems =>
    cases hser
    unfold parseStack
    rw [List.append_assoc, varint_roundtrip _ c hc]
    simp only []
    exact parseCount_serializeEach parseWitnessItem serializeWitnessItem st
      (fun w _ bs r hb => parseWitnessItem_roundtrip w bs hb r) items hitems rest

theorem take_leBytes_self (n k : Nat) : (leBytes n k).take k = leBytes n k := by
  have h := take_leBytes_append n k []
  simpa using h

theorem drop_leBytes_self (n k : Nat) : (leBytes n k).drop k = [] := by
  have h := drop_leBytes_append n k []
  simpa using h

theorem serializeInsCounted_eq_some (l : List TxIn) (ib : List Nat)
    (h : serializeInsCounted l = some ib) :
    ∃ c b, encode_varint l.length = some c ∧
      serializeEach TxIn.serialize l = some b ∧ ib = c ++ b := by
  unfold serializeInsCounted at h
  split at h
  case h_1 c b hc hb => exact ⟨c, b, hc, hb, (Option.some_inj.mp h).symm⟩
  case h_2 => exact absurd h (by simp)

theorem serializeOutsCounted_eq_some (l : List TxOut) (ob : List Nat)
    (h : serializeOutsCounted l = some ob) :
    ∃ c b, encode_varint l.length = some c ∧
      serializeEach TxOut.serialize l = some b ∧ ob = c ++ b := by
  unfold serializeOutsCounted at h
  split at h
  case h_1 c b hc hb => exact ⟨c, b, hc, hb, (Option.some_inj.mp h).symm⟩
  case h_2 => exact absurd h (by simp)

theorem witnessPart_eq_serializeEach (tx : Tx) (ws : List (List (List Nat)))
    (wb : List Nat) (hwseq : tx.witnesses = some ws)
    (hwl : ws.length = tx.tx_ins.length) (hwb : tx.witnessPart = some wb) :
    serializeEach serializeStack ws = some wb := by
  unfold Tx.witnessPart at hwb
  split at hwb
  case isTrue h0 =>
    have hws0 : ws = [] := List.length_eq_zero.mp (by omega)
    cases hwb
    subst hws0
    rfl
  case isFalse h0 =>
    rw [hwseq] at hwb
    simp only [] at hwb
    rw [if_pos (by omega), ← hwl, List.take_length] at hwb
    exact hwb

theorem tx_parse_of_serialize (tx : Tx) (hc : tx.Canonical) (B : List Nat)
    (hser : tx.serialize = some B) : Tx.parse B = .ok (tx, []) := by
  obtain ⟨hflag, htn, hws, hwl0, hins, houts⟩ := hc
  obtain ⟨ws, hwseq⟩ := Option.isSome_iff_exists.mp hws
  have hwl : ws.length = tx.tx_ins.length := by
    rw [hwseq] at hwl0; simpa using hwl0
  unfold Tx.serialize at hser
  split at hser
  case h_1 => exact absurd hser (by simp)
  case h_2 wb hwb =>
    split at hser
    case h_2 => exact absurd hser (by simp)
    case h_1 v fb ib ob lt hv hfb hib hob hlt =>
      cases hser
      obtain ⟨rfl, hvlt⟩ := int_to_little_endian_eq_some _ _ _ hv
      obtain ⟨rfl, hllt⟩ := int_to_little_endian_eq_some _ _ _ hlt
      rw [hflag] at hfb
      have hfb1 : fb = 1 := by
        unfold byteOf at hfb; simpa using (Option.some_inj.mp hfb).symm
      subst hfb1
      obtain ⟨ic, insB, hic, hinsB, rfl⟩ := serializeInsCounted_eq_some _ _ hib
      obtain ⟨oc, outsB, hoc, houtsB, rfl⟩ := serializeOutsCounted_eq_some _ _ hob
      have hwb' : serializeEach serializeStack ws = some wb :=
        witnessPart_eq_serializeEach tx ws wb hwseq hwl hwb
      unfold Tx.parse
      simp only [List.append_assoc, List.cons_append]
      rw [take_leBytes_append, drop_leBytes_append, le_roundtrip 4 _ hvlt]
      simp only [ne_eq, if_neg, reduceIte]
      rw [varint_roundtrip _ ic hic]
      simp only []
      rw [parseCount_serializeEach TxIn.parse TxIn.serialize tx.tx_ins
        (fun t ht bs r hb => txIn_parse_of_serialize t (hins t ht).1 (hins t ht).2 bs hb r)
        insB hinsB _]
      simp only []
      rw [varint_roundtrip _ oc hoc]
      simp only []
      rw [parseCount_serializeEach TxOut.parse TxOut.serialize tx.tx_outs
        (fun o ho bs r hb => txOut_parse_of_serialize o (houts o ho) bs hb r)
        outsB houtsB _]
      simp only []
      rw [← hwl, parseCount_serializeEach parseStack serializeStack ws
        (fun st _ bs r hb => parseStack_serializeStack st bs hb r) wb hwb' _]
      simp only []
      rw [take_leBytes_self, drop_leBytes_self, le_roundtrip 4 _ hllt]
      have hrec : (⟨tx.version, tx.tx_ins, tx.tx_outs, tx.locktime,
          some ws, 1, false⟩ : Tx) = tx := by
        rw [← hwseq, ← hflag, ← htn]
      simp [hrec]

/-! ## The sighash crash: `alt_tx` is built without witnesses, and the
witness serializer subscripts `None` as soon as there is an input. -/

theorem Tx.serialize_witnesses_none (tx : Tx) (hw : tx.witnesses = none)
    (hne : tx.tx_ins ≠ []) : tx.serialize = none := by
  have hwp : tx.witnessPart = none := by
    unfold Tx.witnessPart
    rw [if_neg (fun h => hne (List.length_eq_zero.mp h)), hw]
  unfold Tx.serialize
  rw [hwp]

theorem sigHashAltIns_ok_ne_nil (ops : ScriptOps) (fetch : List Nat → Option Tx)
    (tx : Tx) (i : Nat) (l : List TxIn)
    (h : Tx.sigHashAltIns ops fetch tx i = .ok l) : l ≠ [] := by
  unfold Tx.sigHashAltIns at h
  simp only [] at h
  cases hget : (Tx.blankIns tx).get? i with
  | none => rw [hget] at h; exact absurd h (by simp)
  | some si =>
    rw [hget] at h
    simp only [] at h
    have hlt : i < (Tx.blankIns tx).length := (List.get?_eq_some.mp hget).1
    cases hspk : TxIn.lookupScriptPubkey fetch si with
    | none => rw [hspk] at h; exact absurd h (by simp)
    | some spk =>
      rw [hspk] at h
      simp only [] at h
      by_cases h1 : ops.type spk = "p2pkh"
      · rw [if_pos h1] at h
        injection h with h'
        apply List.ne_nil_of_length_pos
        rw [← h', List.length_set]
        omega
      · rw [if_neg h1] at h
        by_cases h2 : ops.type spk = "p2sh"
        · rw [if_pos h2] at h
          cases hcur : tx.tx_ins.get? i with
          | none => rw [hcur] at h; exact absurd h (by simp)
          | some cur =>
            rw [hcur] at h
            simp only [] at h
            cases hrs : ops.redeem_script cur.script_sig with
            | none => rw [hrs] at h; exact absurd h (by simp)
            | some rs =>
              rw [hrs] at h
              simp only [] at h
              injection h with h'
              apply List.ne_nil_of_length_pos
              rw [← h', List.length_set]
              omega
        · rw [if_neg h2] at h
          exact absurd h (by simp)

/-- Every call of `Tx.sig_hash` raises: when the clone list is built at all,
`alt_tx` (constructed with the default `witnesses=None`) cannot serialize a
nonempty input list. -/
theorem sig_hash_eq_error (ops : ScriptOps) (fetch : List Nat → Option Tx)
    (tx : Tx) (i hash_type : Nat) :
    ∃ e, Tx.sig_hash ops fetch tx i hash_type = .error e := by
  unfold Tx.sig_hash
  cases halt : Tx.sigHashAltIns ops fetch tx i with
  | error e => exact ⟨e, rfl⟩
  | ok alt =>
    have hne : alt ≠ [] := sigHashAltIns_ok_ne_nil ops fetch tx i alt halt
    have hser : (⟨tx.version, alt, tx.tx_outs, tx.locktime, none, 1, false⟩ : Tx).serialize = none :=
      Tx.serialize_witnesses_none _ rfl hne
    refine ⟨.serializeCrashed, ?_⟩
    simp only []
    rw [hser]

theorem checkSig_eq_none (ops : ScriptOps) (ecc : EccOps)
    (fetch : List Nat → Option Tx) (tx : Tx) (i : Nat) (t : TxIn) (k : Nat) :
    Tx.checkSig ops ecc fetch tx i t k = none := by
  unfold Tx.checkSig
  cases h1 : ops.sec_pubkey t.script_sig k with
  | none => rfl
  | some sec =>
    simp only []
    cases h2 : ops.der_signature t.script_sig k with
    | none => rfl
    | some sig =>
      simp only []
      cases h3 : sig.getLast? with
      | none => rfl
      | some ht =>
        simp only []
        obtain ⟨e, he⟩ := sig_hash_eq_error ops fetch tx i ht
        rw [he]

theorem verify_input_none_or_true (ops : ScriptOps) (ecc : EccOps)
    (fetch : List Nat → Option Tx) (tx : Tx) (i : Nat) :
    Tx.verify_input ops ecc fetch tx i = none ∨
      Tx.verify_input ops ecc fetch tx i = some true := by
  unfold Tx.verify_input
  cases hg : tx.tx_ins.get? i with
  | none => exact Or.inl rfl
  | some t =>
    simp only []
    cases hn : ops.num_sigs_required t.script_sig with
    | zero => exact Or.inr rfl
    | succ n =>
      left
      unfold verifyLoop
      rw [checkSig_eq_none]

theorem sign_input_eq_none (ops : ScriptOps) (ecc : EccOps)
    (fetch : List Nat → Option Tx) (key : PrivKey) (tx : Tx)
    (i hash_type : Nat) :
    Tx.sign_input ops ecc fetch key tx i hash_type = none := by
  unfold Tx.sign_input
  obtain ⟨e, he⟩ := sig_hash_eq_error ops fetch tx i hash_type
  rw [he]

/-- The full serialization is always strictly longer than the non-witness
one: it carries the marker and flag bytes and the witness section on top of
the shared version/inputs/outputs/locktime bytes. -/
theorem nw_length_lt_serialize_length (tx : Tx) (B C : List Nat)
    (hB : tx.serialize = some B) (hC : tx.nw_serialize = some C) :
    C.length < B.length := by
  unfold Tx.serialize at hB
  split at hB
  case h_1 => exact absurd hB (by simp)
  case h_2 wb hwb =>
    split at hB
    case h_2 => exact absurd hB (by simp)
    case h_1 v fb ib ob lt hv hfb hib hob hlt =>
      cases hB
      unfold Tx.nw_serialize at hC
      split at hC
      case h_2 => exact absurd hC (by simp)
      case h_1 v2 ib2 ob2 lt2 hv2 hib2 hob2 hlt2 =>
        cases hC
        have ev : v2 = v := Option.some_inj.mp (hv2.symm.trans hv)
        have eib : ib2 = ib := Option.some_inj.mp (hib2.symm.trans hib)
        have eob : ob2 = ob := Option.some_inj.mp (hob2.symm.trans hob)
        have elt : lt2 = lt := Option.some_inj.mp (hlt2.symm.trans hlt)
        subst ev eib eob elt
        simp [List.length_append]
        omega

/-! ## Inversion helpers for parse and serialize -/

theorem serialize_flag_byte (tx : Tx) (hf : tx.flag = 1) (B : List Nat)
    (hser : tx.serialize = some B) : B.get? 5 = some 1 := by
  unfold Tx.serialize at hser
  split at hser
  case h_1 => exact absurd hser (by simp)
  case h_2 wb hwb =>
    split at hser
    case h_2 => exact absurd hser (by simp)
    case h_1 v fb ib ob lt hv hfb hib hob hlt =>
      cases hser
      obtain ⟨rfl, hvlt⟩ := int_to_little_endian_eq_some _ _ _ hv
      rw [hf] at hfb
      have hfb1 : fb = 1 := by
        unfold byteOf at hfb; simpa using (Option.some_inj.mp hfb).symm
      subst hfb1
      rw [List.get?_append_right (by rw [leBytes_length]; omega), leBytes_length]
      rfl

theorem parse_ok_inversion (s : List Nat) (tx : Tx) (rest : List Nat)
    (hp : Tx.parse s = .ok (tx, rest)) : tx.flag = 1 ∧ tx.testnet = false := by
  unfold Tx.parse at hp
  split at hp
  case h_1 => exact absurd hp (by simp)
  case h_2 m s1 =>
    split at hp
    case isTrue => exact absurd hp (by simp)
    case isFalse hm =>
      split at hp
      case h_1 => exact absurd hp (by simp)
      case h_2 f s2 =>
        split at hp
        case isTrue => exact absurd hp (by simp)
        case isFalse hf =>
          split at hp
          case h_1 => exact absurd hp (by simp)
          case h_2 nin s3 =>
            split at hp
            case h_1 => exact absurd hp (by simp)
            case h_2 ins s4 =>
              split at hp
              case h_1 => exact absurd hp (by simp)
              case h_2 nout s5 =>
                split at hp
                case h_1 => exact absurd hp (by simp)
                case h_2 outs s6 =>
                  split at hp
                  case h_1 => exact absurd hp (by simp)
                  case h_2 wits s7 =>
                    injection hp with hp'
                    rw [Prod.mk.injEq] at hp'
                    rw [← hp'.1]
                    exact ⟨rfl, rfl⟩

/-! ## The claims -/

/-- C1 — the spec says `sig_hash` returns the big-endian reading of the
double hash of the non-witness serialization of the substituted clone plus
the 4-byte LE hash type. The code instead calls `alt_tx.serialize()` (the
witness form) on an `alt_tx` constructed without witnesses, so `sig_hash`
raises a `TypeError` on every call and never produces a digest: its result
is never `.ok`. -/
theorem C1_sig_hash_never_succeeds (ops : ScriptOps)
    (fetch : List Nat → Option Tx) (tx : Tx) (i hash_type : Nat) :
    (Tx.sig_hash ops fetch tx i hash_type).isOk = false := by
  obtain ⟨e, he⟩ := sig_hash_eq_error ops fetch tx i hash_type
  rw [he]
  rfl

/-- C1 (evaluation at the failing input): a single-input transaction whose
previous output resolves and classifies as pay-to-public-key-hash still
crashes in the witness serializer (`witnesses = None`). -/
theorem C1_failing_input_eval :
    Tx.sig_hash opsP2pkh fetch0 spendTx 0 1 = .error .serializeCrashed := by
  rfl

/-- C2 — amended: the byte-exact round trip `serialize(parse(B)) = B` holds
for every buffer `B` that is the full witness serialization of a canonical
transaction (flag byte `1`, one witness stack per input, scripts carrying
their wire bytes); the claim as stated fails on grammar-conforming buffers
whose flag byte is not `1`, since `parse` forces flag `1`. -/
theorem C2_roundtrip_canonical (B : List Nat) (tx : Tx) (hc : tx.Canonical)
    (hser : tx.serialize = some B) :
    ∃ tx2, Tx.parse B = .ok (tx2, []) ∧ tx2.serialize = some B :=
  ⟨tx, tx_parse_of_serialize tx hc B hser, hser⟩

/-- C2 witness: the round trip at the concrete canonical `wtx0`. -/
theorem C2_roundtrip_witness :
    ∃ tx2, Tx.parse wtx0B = .ok (tx2, []) ∧ tx2.serialize = some wtx0B :=
  C2_roundtrip_canonical wtx0B wtx0 (by decide) (by rfl)

/-- C2 counterexample: `flagTwoBuf` parses (it is well-formed for the spec's
grammar, `flag:u8(≠0)`), but re-serialization emits flag byte `1`, so
`serialize(parse(B)) ≠ B`. -/
theorem C2_counterexample :
    Tx.parse flagTwoBuf = .ok (flagTwoTx, []) ∧
    (Tx.serialize flagTwoTx == some flagTwoBuf) = false :=
  ⟨by rfl, by decide⟩

/-- C3 — amended: `hash()` is the reversed double hash of `serialize()` and
`txid()` of `nw_serialize()`, and those two byte strings are never equal
(the full serialization carries the marker/flag bytes and the witness
section), so the two identifiers are double hashes of different strings
whether or not the witness stacks are empty; the claim's sentence that
empty witness stacks make `hash() = txid()` is false on this code. -/
theorem C3_identifiers (tx : Tx) (B C : List Nat) (hB : tx.serialize = some B)
    (hC : tx.nw_serialize = some C) :
    Tx.hash tx = some ((double_sha256 B).reverse) ∧
    Tx.txid tx = some ((double_sha256 C).reverse) ∧
    (B == C) = false := by
  refine ⟨by simp [Tx.hash, hB], by simp [Tx.txid, hC], ?_⟩
  have hlt := nw_length_lt_serialize_length tx B C hB hC
  rw [beq_eq_false_iff_ne]
  intro hEq
  rw [hEq] at hlt
  omega

/-- C3 witness: the identifier characterization at the concrete
`emptyWitTx`. -/
theorem C3_identifiers_witness :
    Tx.hash emptyWitTx =
      some ((double_sha256 ((Tx.serialize emptyWitTx).getD [])).reverse) ∧
    Tx.txid emptyWitTx =
      some ((double_sha256 ((Tx.nw_serialize emptyWitTx).getD [])).reverse) ∧
    (((Tx.serialize emptyWitTx).getD []) ==
      ((Tx.nw_serialize emptyWitTx).getD [])) = false :=
  C3_identifiers emptyWitTx _ _ (by rfl) (by rfl)

set_option maxRecDepth 1000000 in
/-- C3 counterexample: `emptyWitTx` has its only witness stack empty, yet
`hash()` and `txid()` differ (computed with the genuine double SHA-256). -/
theorem C3_counterexample :
    emptyWitTx.witnesses = some [[]] ∧
    (Tx.hash emptyWitTx == Tx.txid emptyWitTx) = false :=
  ⟨rfl, by decide⟩

/-- C4 — after the 4 version bytes, a nonzero marker byte fails the parse
with the marker `FormatError`, and a zero flag byte fails it with the flag
`FormatError`; the `Except` result carries no transaction in either case. -/
theorem C4_marker_flag_errors (s : List Nat) (m : Nat) (rest : List Nat)
    (hdrop : s.drop 4 = m :: rest) :
    (m ≠ 0 → Tx.parse s = .error .badMarker) ∧
    (∀ rest2, m = 0 → rest = 0 :: rest2 → Tx.parse s = .error .badFlag) := by
  constructor
  · intro hm
    unfold Tx.parse
    rw [hdrop]
    simp only []
    rw [if_pos hm]
  · intro rest2 hm hrest
    subst hm
    subst hrest
    unfold Tx.parse
    rw [hdrop]
    simp only []
    rw [if_neg (by simp), if_pos trivial]

/-- C4 witness: marker byte `9` is rejected as a bad marker; flag byte `0`
is rejected as a bad flag. -/
theorem C4_marker_flag_witness :
    Tx.parse [1, 0, 0, 0, 9, 9] = .error .badMarker ∧
    Tx.parse [1, 0, 0, 0, 0, 0] = .error .badFlag :=
  ⟨(C4_marker_flag_errors [1, 0, 0, 0, 9, 9] 9 [9] rfl).1 (by decide),
   (C4_marker_flag_errors [1, 0, 0, 0, 0, 0] 0 [0] rfl).2 [] rfl rfl⟩

/-- C5 — in `sig_hash`, with the previous output resolved: a
pay-to-public-key-hash classification substitutes the locking script
verbatim into the targeted clone; a pay-to-script-hash classification
substitutes the parsed redeem script taken from the *real* input's
unlocking script; any other classification makes the call fail with
`UnsupportedScriptType`, with no fallback. -/
theorem C5_sighash_substitution (ops : ScriptOps) (fetch : List Nat → Option Tx)
    (tx : Tx) (i hash_type : Nat) (si : TxIn)
    (hget : (Tx.blankIns tx).get? i = some si)
    (spk : Script) (hspk : TxIn.lookupScriptPubkey fetch si = some spk) :
    (ops.type spk = "p2pkh" →
      Tx.sigHashAltIns ops fetch tx i =
        .ok ((Tx.blankIns tx).set i
          ⟨si.prev_tx, si.prev_index, spk, si.sequence⟩)) ∧
    (∀ cur rs, ops.type spk = "p2sh" → tx.tx_ins.get? i = some cur →
      ops.redeem_script cur.script_sig = some rs →
      Tx.sigHashAltIns ops fetch tx i =
        .ok ((Tx.blankIns tx).set i
          ⟨si.prev_tx, si.prev_index, Script.parse rs, si.sequence⟩)) ∧
    (ops.type spk ≠ "p2pkh" → ops.type spk ≠ "p2sh" →
      Tx.sig_hash ops fetch tx i hash_type = .error .unsupportedScriptType) := by
  refine ⟨?_, ?_, ?_⟩
  · intro h1
    unfold Tx.sigHashAltIns
    simp only []
    rw [hget]
    simp only []
    rw [hspk]
    simp only []
    rw [if_pos h1]
  · intro cur rs h2 hcur hrs
    unfold Tx.sigHashAltIns
    simp only []
    rw [hget]
    simp only []
    rw [hspk]
    simp only []
    rw [if_neg (by rw [h2]; decide), if_pos h2, hcur]
    simp only []
    rw [hrs]
  · intro hn1 hn2
    have halt : Tx.sigHashAltIns ops fetch tx i = .error .unsupportedScriptType := by
      unfold Tx.sigHashAltIns
      simp only []
      rw [hget]
      simp only []
      rw [hspk]
      simp only []
      rw [if_neg hn1, if_neg hn2]
    unfold Tx.sig_hash
    rw [halt]

/-- C5 witness: the three classification outcomes at a concrete one-input
transaction whose previous output resolves through `fetch0`. -/
theorem C5_substitution_witness :
    Tx.sigHashAltIns opsP2pkh fetch0 spendTx 0 =
      .ok ((Tx.blankIns spendTx).set 0
        ⟨List.replicate 32 1, 0, Script.raw [0x76], 0⟩) ∧
    Tx.sigHashAltIns opsP2sh fetch0 spendTx 0 =
      .ok ((Tx.blankIns spendTx).set 0
        ⟨List.replicate 32 1, 0, Script.parse [0x51], 0⟩) ∧
    Tx.sig_hash opsOther fetch0 spendTx 0 1 = .error .unsupportedScriptType :=
  ⟨(C5_sighash_substitution opsP2pkh fetch0 spendTx 0 1
      ⟨List.replicate 32 1, 0, Script.raw [], 0⟩ rfl (Script.raw [0x76]) rfl).1 rfl,
   (C5_sighash_substitution opsP2sh fetch0 spendTx 0 1
      ⟨List.replicate 32 1, 0, Script.raw [], 0⟩ rfl (Script.raw [0x76]) rfl).2.1
      ⟨List.replicate 32 1, 0, Script.raw [0xab], 0⟩ [0x51] rfl rfl rfl,
   (C5_sighash_substitution opsOther fetch0 spendTx 0 1
      ⟨List.replicate 32 1, 0, Script.raw [], 0⟩ rfl (Script.raw [0x76]) rfl).2.2
      (by decide) (by decide)⟩

/-- C6 — the spec says `verify_input` walks the required signatures in
ascending order and reports a failed check as the boolean `false`. Because
every signature check recomputes `sig_hash`, which always raises, the code
can never return `false`: with one or more required signatures it raises
(modelled `none`), and only a zero-signature script yields `true`. -/
theorem C6_verify_input_never_false (ops : ScriptOps) (ecc : EccOps)
    (fetch : List Nat → Option Tx) (tx : Tx) (i : Nat) :
    Tx.verify_input ops ecc fetch tx i = none ∨
      Tx.verify_input ops ecc fetch tx i = some true :=
  verify_input_none_or_true ops ecc fetch tx i

/-- C6 (evaluation at the failing input): one required signature, a present
public key and signature — the verification raises inside `sig_hash`
instead of checking the signature. -/
theorem C6_failing_input_eval :
    Tx.verify_input opsP2pkh eccYes fetch0 spendTx 0 = none := by
  rfl

/-- C7 — the spec says `sign_input` installs the two-element unlocking
script and self-verifies. The code computes `sig_hash` first, which always
raises, so `sign_input` never installs anything and never returns a
boolean. -/
theorem C7_sign_input_always_raises (ops : ScriptOps) (ecc : EccOps)
    (fetch : List Nat → Option Tx) (key : PrivKey) (tx : Tx)
    (i hash_type : Nat) :
    Tx.sign_input ops ecc fetch key tx i hash_type = none :=
  sign_input_eq_none ops ecc fetch key tx i hash_type

/-- C7 (evaluation at the failing input). -/
theorem C7_failing_input_eval :
    Tx.sign_input opsP2pkh eccYes fetch0 ⟨fun _ => [9], [8]⟩ spendTx 0 1 = none := by
  rfl

/-- C8 — the BIP68 decoder: bit 31 of the sequence is the disable flag
(decoding to the Python value `None` when set), bit 22 the type flag, and
the low 16 bits the value — times 512 seconds in the time branch, a raw
block count otherwise. -/
theorem C8_nsequence_decode (t : TxIn) :
    (t.sequence.testBit 31 = true → t.nsequence = none) ∧
    (t.sequence.testBit 31 = false → t.sequence.testBit 22 = true →
      t.nsequence = some (true, "sec", t.sequence % 65536 * 512)) ∧
    (t.sequence.testBit 31 = false → t.sequence.testBit 22 = false →
      t.nsequence = some (true, "block", t.sequence % 65536)) := by
  have e31 : 2147483648 &&& t.sequence = 2 ^ 31 * (t.sequence.testBit 31).toNat := by
    rw [show (2147483648 : Nat) = 2 ^ 31 by norm_num, Nat.two_pow_and]
  have e22 : 4194304 &&& t.sequence = 2 ^ 22 * (t.sequence.testBit 22).toNat := by
    rw [show (4194304 : Nat) = 2 ^ 22 by norm_num, Nat.two_pow_and]
  have ev : 0x0000FFFF &&& t.sequence = t.sequence % 65536 := by
    rw [Nat.land_comm]
    have h := Nat.and_pow_two_sub_one_eq_mod t.sequence 16
    norm_num at h
    exact h
  refine ⟨?_, ?_, ?_⟩
  · intro h31
    simp [TxIn.nsequence, e31, h31]
  · intro h31 h22
    simp [TxIn.nsequence, e31, e22, ev, h31, h22]
  · intro h31 h22
    simp [TxIn.nsequence, e31, e22, ev, h31, h22]

/-- C8 witness: the three decodings at concrete sequence numbers —
`2^31` (disabled), `2^22 + 5` (time, `5 * 512` seconds), `7` (7 blocks). -/
theorem C8_nsequence_witness :
    (⟨[], 0, Script.raw [], 2147483648⟩ : TxIn).nsequence = none ∧
    (⟨[], 0, Script.raw [], 4194309⟩ : TxIn).nsequence = some (true, "sec", 2560) ∧
    (⟨[], 0, Script.raw [], 7⟩ : TxIn).nsequence = some (true, "block", 7) :=
  ⟨(C8_nsequence_decode ⟨[], 0, Script.raw [], 2147483648⟩).1 (by decide),
   (C8_nsequence_decode ⟨[], 0, Script.raw [], 4194309⟩).2.1 (by decide) (by decide),
   (C8_nsequence_decode ⟨[], 0, Script.raw [], 7⟩).2.2 (by decide) (by decide)⟩

/-- C9 — every transaction `parse` produces carries format flag `1`, no
matter which nonzero flag byte was on the wire, and its re-serialization
therefore puts the byte `1` at the flag position (offset 5). -/
theorem C9_parse_flag_forced (s : List Nat) (tx : Tx) (rest : List Nat)
    (hp : Tx.parse s = .ok (tx, rest)) :
    tx.flag = 1 ∧ ∀ B, tx.serialize = some B → B.get? 5 = some 1 := by
  have hf := (parse_ok_inversion s tx rest hp).1
  exact ⟨hf, fun B hB => serialize_flag_byte tx hf B hB⟩

/-- C9 witness: `flagTwoBuf` came in with flag byte `2`; the parsed
transaction has flag `1` and re-serializes with byte `1` at offset 5. -/
theorem C9_parse_flag_witness :
    flagTwoTx.flag = 1 ∧ ((Tx.serialize flagTwoTx).getD []).get? 5 = some 1 :=
  ⟨(C9_parse_flag_forced flagTwoBuf flagTwoTx [] (by rfl)).1,
   (C9_parse_flag_forced flagTwoBuf flagTwoTx [] (by rfl)).2 _ (by rfl)⟩

/-- C10 — `coinbase_height` returns the defined value `None` (not an error)
whenever `is_coinbase()` is false; on a coinbase transaction it returns the
little-endian decoding of the first element of the sole input's unlocking
script. -/
theorem C10_coinbase_height_spec (ops : ScriptOps) (tx : Tx) :
    (tx.is_coinbase = false → Tx.coinbase_height ops tx = some none) ∧
    (∀ fi tl e es, tx.is_coinbase = true → tx.tx_ins = fi :: tl →
      ops.elements fi.script_sig = e :: es →
      Tx.coinbase_height ops tx = some (some (little_endian_to_int e))) := by
  constructor
  · intro h
    simp [Tx.coinbase_height, h]
  · intro fi tl e es hcb hins hel
    simp [Tx.coinbase_height, hcb, hins, hel]

/-- C10 witness: the concrete coinbase transaction decodes height `100`;
the non-coinbase `spendTx` gets the value `None`. -/
theorem C10_coinbase_witness :
    Tx.coinbase_height opsHeight coinbaseTx = some (some 100) ∧
    Tx.coinbase_height opsHeight spendTx = some none :=
  ⟨(C10_coinbase_height_spec opsHeight coinbaseTx).2
      ⟨List.replicate 32 0, 0xffffffff, Script.raw [3, 100, 0, 0], 0⟩ [] [100] []
      (by decide) rfl rfl,
   (C10_coinbase_height_spec opsHeight spendTx).1 (by decide)⟩
